import Mathlib

/-!
Shallow embedding of the online-bookstore NestJS backend
(`AuthService`, `UsersService`, `BooksService` over a drizzle/postgres store),
with theorems checking the specification's claims about it.

The credential store (§3 of the spec, `users` table of the drizzle schema) is
modelled as a list of rows plus the next serial id.  Each awaited drizzle call
(`select`, `insert ... returning`, `update ... set ... where`) becomes a pure
function on that state.  bcrypt hashing is modelled by an abstract collision
free constructor pairing the plaintext with the per-call random salt (the salt
is passed explicitly where the source draws randomness); `bcrypt.compare`
checks the plaintext component.  JWT signing is modelled as a transparent
wrapper around the payload, so that decoding a token is projection.
Timestamps (`new Date()`) are passed explicitly as naturals.
-/

namespace Bookstore

/-- Model of a bcrypt hash: `bcrypt.hash(plaintext, 10)` draws a random salt,
so a hash value is the pair of the hashed plaintext and that salt.  The model
is idealized to be collision free. -/
structure HashVal where
  plain : String
  salt : Nat
deriving DecidableEq

/-- `bcrypt.hash(plaintext, 10)` with the per-call random salt made explicit. -/
def bcryptHash (plaintext : String) (salt : Nat) : HashVal :=
  { plain := plaintext, salt := salt }

/-- `bcrypt.compare(plaintext, hash)`: true exactly when the hash was produced
from this plaintext (idealized constant-time verification). -/
def bcryptCompare (plaintext : String) (h : HashVal) : Bool :=
  plaintext == h.plain

/-- A row of the `users` table (drizzle schema): serial id, unique email,
nullable password hash, optional names, nullable unique google id, nullable
avatar, `is_active` defaulting to true, and created/updated timestamps. -/
structure User where
  id : Nat
  email : String
  password : Option HashVal
  firstName : Option String
  lastName : Option String
  googleId : Option String
  avatar : Option String
  isActive : Bool
  createdAt : Nat
  updatedAt : Nat
deriving DecidableEq

/-- The insertable shape (`NewUser`): fields omitted from `values(...)` take
their schema defaults (`password`/`googleId`/`avatar` null, `is_active` true). -/
structure NewUser where
  email : String
  password : Option HashVal := none
  firstName : Option String := none
  lastName : Option String := none
  googleId : Option String := none
  avatar : Option String := none
deriving DecidableEq

/-- The credential store: the `users` table plus the serial-id counter. -/
structure DB where
  users : List User
  nextId : Nat
deriving DecidableEq

/-- `select().from(users).where(eq(users.email, email))` destructured to its
first row: `find?` over the table in row order, `null` mapped to `none`. -/
def findUserByEmail (db : DB) (email : String) : Option User :=
  db.users.find? (fun u => decide (u.email = email))

/-- `select().from(users).where(eq(users.googleId, googleId))` destructured to
its first row; SQL `NULL` google ids never compare equal to a string. -/
def findUserByGoogleId (db : DB) (googleId : String) : Option User :=
  db.users.find? (fun u => decide (u.googleId = some googleId))

/-- `select().from(users).where(eq(users.id, id))` destructured to its first
row. -/
def findUserById (db : DB) (id : Nat) : Option User :=
  db.users.find? (fun u => decide (u.id = id))

/-- `insert(users).values(newUser).returning()`: appends a row carrying the
next serial id and the schema defaults, returning the new state and row. -/
def insertUser (db : DB) (nu : NewUser) (now : Nat) : DB × User :=
  let created : User :=
    { id := db.nextId, email := nu.email, password := nu.password,
      firstName := nu.firstName, lastName := nu.lastName,
      googleId := nu.googleId, avatar := nu.avatar,
      isActive := true, createdAt := now, updatedAt := now }
  ({ users := db.users ++ [created], nextId := db.nextId + 1 }, created)

/-- `update(users).set(...).where(eq(users.id, id))`: applies the field update
`f` to every row whose id matches (at most one, ids being serial). -/
def updateUserRow (db : DB) (id : Nat) (f : User → User) : DB :=
  { db with users := db.users.map (fun u => if u.id = id then f u else u) }

/-- The JWT payload built by `AuthService.login`. -/
structure JwtPayload where
  sub : Nat
  email : String
  firstName : Option String
  lastName : Option String
deriving DecidableEq

/-- A signed token.  `jwtService.sign` is modelled as a transparent wrapper:
the payload is recovered by projection, which is what a verified decode of the
token yields. -/
structure AccessToken where
  payload : JwtPayload
deriving DecidableEq

/-- `jwtService.sign(payload)`. -/
def jwtSign (payload : JwtPayload) : AccessToken :=
  { payload := payload }

/-- `Omit<User, 'password'>`: the user row without its password-hash field
(the type has no such field at all). -/
structure PublicUser where
  id : Nat
  email : String
  firstName : Option String
  lastName : Option String
  googleId : Option String
  avatar : Option String
  isActive : Bool
  createdAt : Nat
  updatedAt : Nat
deriving DecidableEq

/-- `const { password: _, ...userWithoutPassword } = user`. -/
def stripPassword (u : User) : PublicUser :=
  { id := u.id, email := u.email, firstName := u.firstName,
    lastName := u.lastName, googleId := u.googleId, avatar := u.avatar,
    isActive := u.isActive, createdAt := u.createdAt, updatedAt := u.updatedAt }

/-- `LoginResponse` of `AuthService`. -/
structure LoginResponse where
  access_token : AccessToken
  user : PublicUser
deriving DecidableEq

/-- Errors thrown by the auth flow: `UnauthorizedException(msg)`, and the
uncaught JavaScript `TypeError` that reading `.value` of `undefined`
produces (`emails[0].value` on an empty list). -/
inductive AuthError where
  | unauthorized (msg : String)
  | runtimeTypeError
deriving DecidableEq

/-- `AuthService.validateUser(email, password)`: looks up by email and
returns the row only if it exists, carries a password hash, and
`bcrypt.compare` accepts; every negative case returns the same `null`. -/
def validateUser (db : DB) (email password : String) : Option User :=
  match findUserByEmail db email with
  | some user =>
      match user.password with
      | some h => if bcryptCompare password h then some user else none
      | none => none
  | none => none

/-- `AuthService.login(user)`: mints a token over `{sub, email, names}` and
returns it with the password-stripped user.  No store access. -/
def login (user : User) : LoginResponse :=
  { access_token := jwtSign
      { sub := user.id, email := user.email,
        firstName := user.firstName, lastName := user.lastName },
    user := stripPassword user }

/-- `AuthController.getProfile(user)`: pure password-stripping projection of
the already-resolved user.  No store access. -/
def getProfile (user : User) : PublicUser :=
  stripPassword user

/-- `AuthService.register(userData)`: conflict check by email, then hash,
insert (schema default `is_active = true`), and `login` on the created row. -/
def register (db : DB) (salt now : Nat) (email password : String)
    (firstName lastName : Option String) : Except AuthError (DB × LoginResponse) :=
  match findUserByEmail db email with
  | some _ => .error (.unauthorized "User already exists")
  | none =>
      let hashedPassword := bcryptHash password salt
      let inserted := insertUser db
        { email := email, password := some hashedPassword,
          firstName := firstName, lastName := lastName } now
      .ok (inserted.1, login inserted.2)

/-- `AuthService.changePassword(userId, currentPassword, newPassword)`. -/
def changePassword (db : DB) (salt now : Nat) (userId : Nat)
    (currentPassword newPassword : String) : Except AuthError DB :=
  match findUserById db userId with
  | none => .error (.unauthorized "User not found or no password set")
  | some user =>
      match user.password with
      | none => .error (.unauthorized "User not found or no password set")
      | some stored =>
          if bcryptCompare currentPassword stored then
            .ok (updateUserRow db userId (fun u =>
              { u with password := some (bcryptHash newPassword salt),
                       updatedAt := now }))
          else
            .error (.unauthorized "Current password is incorrect")

/-- The `name` object of a passport Google profile. -/
structure GoogleName where
  givenName : Option String
  familyName : Option String
deriving DecidableEq

/-- One entry of a Google profile's `emails` array. -/
structure GoogleEmail where
  value : String
deriving DecidableEq

/-- One entry of a Google profile's `photos` array. -/
structure GooglePhoto where
  value : String
deriving DecidableEq

/-- The provider-supplied profile destructured by `googleLogin`. -/
structure GoogleProfile where
  id : String
  emails : List GoogleEmail
  name : GoogleName
  photos : List GooglePhoto
deriving DecidableEq

/-- `AuthService.googleLogin(profile)`.  `emails[0].value` on an empty array
is the uncaught `TypeError` branch.  `photos[0]?.value` is `head?`; in the
link path drizzle skips an `undefined` value in `set`, so the stored avatar
is only overwritten when a photo is present, while the in-memory record is
hand-patched to `photos[0]?.value` itself (the drift noted in spec §9). -/
def googleLogin (db : DB) (now : Nat) (profile : GoogleProfile) :
    Except AuthError (DB × LoginResponse) :=
  match profile.emails with
  | [] => .error .runtimeTypeError
  | firstEmail :: _ =>
      let email := firstEmail.value
      let avatarOpt := (profile.photos.head?).map GooglePhoto.value
      match findUserByGoogleId db profile.id with
      | some user => .ok (db, login user)
      | none =>
          match findUserByEmail db email with
          | some user =>
              let db2 := updateUserRow db user.id (fun u =>
                { u with googleId := some profile.id,
                         avatar := avatarOpt.or u.avatar })
              let linked : User :=
                { user with googleId := some profile.id, avatar := avatarOpt }
              .ok (db2, login linked)
          | none =>
              let inserted := insertUser db
                { email := email, googleId := some profile.id,
                  firstName := profile.name.givenName,
                  lastName := profile.name.familyName,
                  avatar := avatarOpt } now
              .ok (inserted.1, login inserted.2)

/-- `NotFoundException(msg)` thrown by the catalog and users services. -/
inductive NotFoundError where
  | notFound (msg : String)
deriving DecidableEq

/-! ### UsersService -/

/-- `UpdateUserDto`: every field optional, no password field. -/
structure UpdateUserDto where
  email : Option String := none
  firstName : Option String := none
  lastName : Option String := none
  avatar : Option String := none
deriving DecidableEq

/-- The `set({...updateUserDto, updatedAt: new Date()})` row transform:
supplied fields overwrite, absent (`undefined`) fields are skipped by
drizzle, the password column is untouched. -/
def applyUserUpdate (dto : UpdateUserDto) (now : Nat) (u : User) : User :=
  { u with
    email := dto.email.getD u.email,
    firstName := dto.firstName.or u.firstName,
    lastName := dto.lastName.or u.lastName,
    avatar := dto.avatar.or u.avatar,
    updatedAt := now }

/-- `UsersService.findAll()`: select all rows, strip each password. -/
def usersFindAll (db : DB) : List PublicUser :=
  db.users.map stripPassword

/-- `UsersService.findOne(id)`: 404 on a missing id, else the stripped row. -/
def usersFindOne (db : DB) (id : Nat) : Except NotFoundError PublicUser :=
  match findUserById db id with
  | none => .error (.notFound ("User with ID " ++ toString id ++ " not found"))
  | some user => .ok (stripPassword user)

/-- `UsersService.update(id, dto)`: update-where-id with `returning()`; 404
when no row matched, else the new state and the stripped updated row. -/
def usersUpdate (db : DB) (now : Nat) (id : Nat) (dto : UpdateUserDto) :
    Except NotFoundError (DB × PublicUser) :=
  match (findUserById db id).map (applyUserUpdate dto now) with
  | none => .error (.notFound ("User with ID " ++ toString id ++ " not found"))
  | some updatedUser =>
      .ok (updateUserRow db id (applyUserUpdate dto now), stripPassword updatedUser)

/-- `UsersService.deactivate(id)`: set `isActive := false` plus timestamp. -/
def usersDeactivate (db : DB) (now : Nat) (id : Nat) :
    Except NotFoundError (DB × PublicUser) :=
  match (findUserById db id).map (fun u => { u with isActive := false, updatedAt := now }) with
  | none => .error (.notFound ("User with ID " ++ toString id ++ " not found"))
  | some deactivatedUser =>
      .ok (updateUserRow db id (fun u => { u with isActive := false, updatedAt := now }),
           stripPassword deactivatedUser)

/-- `UsersService.activate(id)`: set `isActive := true` plus timestamp. -/
def usersActivate (db : DB) (now : Nat) (id : Nat) :
    Except NotFoundError (DB × PublicUser) :=
  match (findUserById db id).map (fun u => { u with isActive := true, updatedAt := now }) with
  | none => .error (.notFound ("User with ID " ++ toString id ++ " not found"))
  | some activatedUser =>
      .ok (updateUserRow db id (fun u => { u with isActive := true, updatedAt := now }),
           stripPassword activatedUser)

/-! ### BooksService -/

/-- A JavaScript value handed to the store for the `price` column: either the
raw number from the DTO or its `toString()` form.  The DTO's `number` payload
is modelled by `Int` (the truthiness of a number is its being nonzero). -/
inductive StoreVal where
  | numVal (n : Int)
  | strVal (s : String)
deriving DecidableEq

/-- A row of the `books` table.  `price` holds whatever value the service
last handed to the store (see `StoreVal`); `new Date(publishedDateString)` is
modelled by the string it parses, which no claim inspects further. -/
structure Book where
  id : Nat
  title : String
  author : String
  isbn : String
  description : Option String
  price : StoreVal
  stock : Int
  category : Option String
  publishedDate : Option String
  coverImage : Option String
  createdAt : Nat
  updatedAt : Nat
deriving DecidableEq

/-- The `books` table plus its serial-id counter. -/
structure BookDB where
  books : List Book
  nextId : Nat
deriving DecidableEq

/-- `UpdateBookDto` (`PartialType(CreateBookDto)`): every field optional. -/
structure UpdateBookDto where
  title : Option String := none
  author : Option String := none
  isbn : Option String := none
  description : Option String := none
  price : Option Int := none
  stock : Option Int := none
  category : Option String := none
  publishedDate : Option String := none
  coverImage : Option String := none
deriving DecidableEq

/-- The `price` entry of `BooksService.update`'s `updateData`: the spread
copies the DTO's numeric price, and `if (updateBookDto.price)` overwrites it
with `price.toString()` only when the number is truthy, i.e. nonzero; an
absent price stays absent (drizzle skips `undefined`). -/
def bookUpdatePriceValue (dto : UpdateBookDto) : Option StoreVal :=
  match dto.price with
  | none => none
  | some p => if p ≠ 0 then some (.strVal (toString p)) else some (.numVal p)

/-- The full `updateData` row transform of `BooksService.update`: the DTO
spread plus `updatedAt`, with the price conversion above and the
`if (updateBookDto.publishedDate)` date parse (an empty string is falsy). -/
def applyBookUpdate (dto : UpdateBookDto) (now : Nat) (b : Book) : Book :=
  { b with
    title := dto.title.getD b.title,
    author := dto.author.getD b.author,
    isbn := dto.isbn.getD b.isbn,
    description := dto.description.or b.description,
    price := (bookUpdatePriceValue dto).getD b.price,
    stock := dto.stock.getD b.stock,
    category := dto.category.or b.category,
    publishedDate := match dto.publishedDate with
                     | some s => if s ≠ "" then some s else b.publishedDate
                     | none => b.publishedDate,
    coverImage := dto.coverImage.or b.coverImage,
    updatedAt := now }

/-- `BooksService.findOne(id)`: 404 on a missing id. -/
def booksFindOne (db : BookDB) (id : Nat) : Except NotFoundError Book :=
  match db.books.find? (fun b => decide (b.id = id)) with
  | none => .error (.notFound ("Book with ID " ++ toString id ++ " not found"))
  | some book => .ok book

/-- `BooksService.update(id, dto)`: update-where-id with `returning()`; 404
when no row matched. -/
def booksUpdate (db : BookDB) (now : Nat) (id : Nat) (dto : UpdateBookDto) :
    Except NotFoundError (BookDB × Book) :=
  match (db.books.find? (fun b => decide (b.id = id))).map (applyBookUpdate dto now) with
  | none => .error (.notFound ("Book with ID " ++ toString id ++ " not found"))
  | some updatedBook =>
      .ok ({ db with books := db.books.map (fun b =>
               if b.id = id then applyBookUpdate dto now b else b) },
           updatedBook)

/-- `BooksService.remove(id)`: delete-where-id with `returning()`; 404 when
the returned list is empty. -/
def booksRemove (db : BookDB) (id : Nat) : Except NotFoundError BookDB :=
  let returned := db.books.filter (fun b => decide (b.id = id))
  if returned.length = 0 then
    .error (.notFound ("Book with ID " ++ toString id ++ " not found"))
  else
    .ok { db with books := db.books.filter (fun b => decide (¬ b.id = id)) }

/-- `BooksService.updateStock(id, quantity)`: set `stock` plus timestamp;
404 when no row matched. -/
def booksUpdateStock (db : BookDB) (now : Nat) (id : Nat) (quantity : Int) :
    Except NotFoundError (BookDB × Book) :=
  match (db.books.find? (fun b => decide (b.id = id))).map
      (fun b => { b with stock := quantity, updatedAt := now }) with
  | none => .error (.notFound ("Book with ID " ++ toString id ++ " not found"))
  | some updatedBook =>
      .ok ({ db with books := db.books.map (fun b =>
               if b.id = id then { b with stock := quantity, updatedAt := now } else b) },
           updatedBook)

/-- PostgreSQL `LIKE`/`ILIKE` pattern matching against a whole string, on
character lists: `%` matches any sequence, `_` any single character, a
backslash escapes the following pattern character, and ordinary characters
compare after `lower()` (the `I` of `ILIKE`).  A pattern ending in a bare
escape matches nothing (PostgreSQL rejects such patterns outright). -/
def likeMatch : List Char → List Char → Bool
  | [], [] => true
  | [], _ :: _ => false
  | '%' :: ps, s => s.tails.any (fun t => likeMatch ps t)
  | '_' :: _, [] => false
  | '_' :: ps, _ :: s₂ => likeMatch ps s₂
  | '\\' :: _ :: _, [] => false
  | '\\' :: p₁ :: ps₂, c :: s₂ => (p₁.toLower == c.toLower) && likeMatch ps₂ s₂
  | ['\\'], _ => false
  | _ :: _, [] => false
  | p₀ :: ps, c :: s₂ => (p₀.toLower == c.toLower) && likeMatch ps s₂

/-- `ilike(column, pattern)` as a row predicate: a SQL `NULL` column value
never matches. -/
def ilikeCol (col : Option String) (pat : String) : Bool :=
  match col with
  | none => false
  | some s => likeMatch pat.data s.data

/-- `BooksService.search(query)`: rows where `%query%` ILIKE-matches the
title, the author, or the description. -/
def booksSearch (db : BookDB) (query : String) : List Book :=
  let pat := "%" ++ query ++ "%"
  db.books.filter (fun b =>
    ilikeCol (some b.title) pat || ilikeCol (some b.author) pat ||
      ilikeCol b.description pat)

/-- Modelled from the spec claim's words: `query` occurs as a
case-insensitive substring of `s` (both sides lowered, then substring). -/
def ciSubstring (query s : String) : Bool :=
  ((s.data.map Char.toLower).tails).any
    (fun t => (query.data.map Char.toLower).isPrefixOf t)

/-- Modelled from the spec claim's words: exactly the books whose title,
author, or description contains the query as a case-insensitive substring
(an absent description contains nothing). -/
def booksSearchSpec (db : BookDB) (query : String) : List Book :=
  db.books.filter (fun b =>
    ciSubstring query b.title || ciSubstring query b.author ||
      (match b.description with | some d => ciSubstring query d | none => false))

instance {ε α : Type} [DecidableEq ε] [DecidableEq α] : DecidableEq (Except ε α) := fun a b =>
  match a, b with
  | .error e₁, .error e₂ =>
      if h : e₁ = e₂ then isTrue (congrArg Except.error h)
      else isFalse (fun hh => h (Except.error.inj hh))
  | .error _, .ok _ => isFalse (fun hh => Except.noConfusion hh)
  | .ok _, .error _ => isFalse (fun hh => Except.noConfusion hh)
  | .ok v₁, .ok v₂ =>
      if h : v₁ = v₂ then isTrue (congrArg Except.ok h)
      else isFalse (fun hh => h (Except.ok.inj hh))

/-! ### Concrete fixtures used by the witnesses and counterexamples -/

/-- A concrete book row. -/
def exBook : Book :=
  { id := 1, title := "abc", author := "Jane Roe", isbn := "9780000000000",
    description := none, price := .strVal "12.50", stock := 3, category := none,
    publishedDate := none, coverImage := none, createdAt := 0, updatedAt := 0 }

/-- A one-book catalog. -/
def exBookDB : BookDB :=
  { books := [exBook], nextId := 2 }

/-- A concrete password-based user row. -/
def exUser : User :=
  { id := 1, email := "a@b.com", password := some (bcryptHash "secret1" 3),
    firstName := some "Ada", lastName := none, googleId := none, avatar := none,
    isActive := true, createdAt := 0, updatedAt := 0 }

/-- A one-user credential store. -/
def exDB : DB :=
  { users := [exUser], nextId := 2 }

/-- A concrete Google profile sharing `exUser`'s email. -/
def exProfile : GoogleProfile :=
  { id := "g-77", emails := [{ value := "a@b.com" }],
    name := { givenName := some "Ada", familyName := none },
    photos := [{ value := "http://p/1.png" }] }

/-! ### Helper lemmas on list lookups -/

theorem find?_eq_some_of_unique {α : Type} {p : α → Bool} {l : List α} {u : α}
    (hu : u ∈ l) (hp : p u = true) (huniq : ∀ v ∈ l, p v = true → v = u) :
    l.find? p = some u := by
  induction l with
  | nil => cases hu
  | cons a t ih =>
      by_cases ha : p a = true
      · have hau : a = u := huniq a (List.mem_cons_self a t) ha
        subst hau
        simp [List.find?_cons, ha]
      · have ha' : p a = false := by
          cases hpa : p a
          · rfl
          · exact absurd hpa ha
        rw [List.find?_cons, ha']
        rcases List.mem_cons.mp hu with h | h
        · subst h
          exact absurd hp ha
        · exact ih h (fun v hv hpv => huniq v (List.mem_cons_of_mem _ hv) hpv)

theorem countP_eq_one_of_unique {α : Type} {p : α → Bool} {l : List α} {u : α}
    (hnd : l.Nodup) (hu : u ∈ l) (hp : p u = true)
    (huniq : ∀ v ∈ l, p v = true → v = u) :
    l.countP p = 1 := by
  induction l with
  | nil => cases hu
  | cons a t ih =>
      rw [List.nodup_cons] at hnd
      rcases List.mem_cons.mp hu with rfl | hmem
      · rw [List.countP_cons_of_pos p t hp]
        have ht : t.countP p = 0 := List.countP_eq_zero.mpr (fun v hv hpv => by
          have hvu : v = u := huniq v (List.mem_cons_of_mem _ hv) hpv
          subst hvu
          exact hnd.1 hv)
        rw [ht]
      · have ha : ¬p a = true := fun hpa =>
          hnd.1 ((huniq a (List.mem_cons_self a t) hpa) ▸ hmem)
        rw [List.countP_cons_of_neg p t ha]
        exact ih hnd.2 hmem (fun v hv hpv => huniq v (List.mem_cons_of_mem _ hv) hpv)

/-- Well-formedness of the credential store maintained by the schema's
constraints: ids are unique (serial primary key) and emails are unique. -/
def WF (db : DB) : Prop :=
  (db.users.map User.id).Nodup ∧ (db.users.map User.email).Nodup

theorem WF.id_inj {db : DB} (h : WF db) {u v : User}
    (hu : u ∈ db.users) (hv : v ∈ db.users) (hid : u.id = v.id) : u = v :=
  List.inj_on_of_nodup_map h.1 hu hv hid

theorem WF.email_inj {db : DB} (h : WF db) {u v : User}
    (hu : u ∈ db.users) (hv : v ∈ db.users) (hid : u.email = v.email) : u = v :=
  List.inj_on_of_nodup_map h.2 hu hv hid

theorem WF.nodup {db : DB} (h : WF db) : db.users.Nodup :=
  h.1.of_map

/-! ### Claim theorems -/

/-- C5: for every user record, `login` returns a token whose decoded subject
equals the user's id, together with the password-stripped public user object;
`getProfile` is the same pure projection (its type takes no store); and the
projection is independent of the stored password hash — the `PublicUser`
result type has no password field at all. -/
theorem login_getProfile_spec :
    (∀ u : User, (login u).access_token.payload.sub = u.id) ∧
    (∀ u : User, (login u).user = stripPassword u) ∧
    (∀ u : User, getProfile u = stripPassword u) ∧
    (∀ (u : User) (p : Option HashVal),
        stripPassword { u with password := p } = stripPassword u) :=
  ⟨fun _ => rfl, fun _ => rfl, fun _ => rfl, fun _ _ => rfl⟩

/-- C2: `validateUser` returns the single undifferentiated `none` exactly when
the user is absent, the stored hash is absent, or verification fails — and
returns the found row exactly when a stored hash verifies.  The operation
reads the store and returns no new store state (its type performs no write),
so it is idempotent. -/
theorem validateUser_spec :
    (∀ (db : DB) (email password : String),
        validateUser db email password = none ↔
          (findUserByEmail db email = none ∨
           (∃ u, findUserByEmail db email = some u ∧ u.password = none) ∨
           (∃ u h, findUserByEmail db email = some u ∧ u.password = some h ∧
              bcryptCompare password h = false))) ∧
    (∀ (db : DB) (email password : String) (u : User),
        validateUser db email password = some u ↔
          (findUserByEmail db email = some u ∧
           ∃ h, u.password = some h ∧ bcryptCompare password h = true)) := by
  constructor
  · intro db email password
    unfold validateUser
    cases hf : findUserByEmail db email with
    | none => simp
    | some u =>
        cases hp : u.password with
        | none => simp [hp]
        | some h =>
            by_cases hc : bcryptCompare password h
            · simp [hc, hp]
            · simp only [Bool.not_eq_true] at hc
              simp [hc, hp]
  · intro db email password u
    constructor
    · intro hv
      unfold validateUser at hv
      split at hv
      · rename_i v hf
        split at hv
        · rename_i h hp
          split at hv
          · rename_i hc
            cases hv
            exact ⟨hf, h, hp, hc⟩
          · exact absurd hv (by simp)
        · exact absurd hv (by simp)
      · exact absurd hv (by simp)
    · rintro ⟨hf, h, hp, hc⟩
      unfold validateUser
      simp [hf, hp, hc]

/-- C6: on a profile with zero email addresses, `googleLogin` destructures
`emails[0].value` of an empty array: the code path is the uncaught JavaScript
`TypeError`, not a validation error. -/
theorem googleLogin_empty_emails :
    ∀ (db : DB) (now : Nat) (pid : String) (nm : GoogleName) (ph : List GooglePhoto),
      googleLogin db now { id := pid, emails := [], name := nm, photos := ph } =
        .error .runtimeTypeError :=
  fun _ _ _ _ _ => rfl

/-- C10: `BooksService.update` converts the supplied price with `toString`
only when it is truthy: a supplied price of `0` is passed through to the
store as the unconverted number `0`, every nonzero supplied price as its
string form, and an absent price leaves the column untouched. -/
theorem booksUpdate_price_truthiness :
    (∀ (dto : UpdateBookDto) (now : Nat) (b : Book), dto.price = some 0 →
        (applyBookUpdate dto now b).price = StoreVal.numVal 0) ∧
    (∀ (dto : UpdateBookDto) (now : Nat) (b : Book) (p : Int),
        dto.price = some p → p ≠ 0 →
        (applyBookUpdate dto now b).price = StoreVal.strVal (toString p)) ∧
    (∀ (dto : UpdateBookDto) (now : Nat) (b : Book), dto.price = none →
        (applyBookUpdate dto now b).price = b.price) := by
  refine ⟨?_, ?_, ?_⟩
  · intro dto now b hp
    simp [applyBookUpdate, bookUpdatePriceValue, hp]
  · intro dto now b p hp hnz
    simp [applyBookUpdate, bookUpdatePriceValue, hp, hnz]
  · intro dto now b hp
    simp [applyBookUpdate, bookUpdatePriceValue, hp]

/-- Witness for C10 at concrete inputs: price 0 is passed through as the
number `0`, price 25 as the string `"25"`, an absent price keeps the stored
value. -/
theorem booksUpdate_price_truthiness_witness :
    (applyBookUpdate { price := some 0 } 9 exBook).price = StoreVal.numVal 0 ∧
    (applyBookUpdate { price := some 25 } 9 exBook).price = StoreVal.strVal "25" ∧
    (applyBookUpdate { price := none } 9 exBook).price = StoreVal.strVal "12.50" :=
  ⟨booksUpdate_price_truthiness.1 { price := some 0 } 9 exBook (by decide),
   booksUpdate_price_truthiness.2.1 { price := some 25 } 9 exBook 25 rfl (by decide),
   booksUpdate_price_truthiness.2.2 { price := none } 9 exBook (by decide)⟩

/-- C4: `register` fails (with the source's `UnauthorizedException`, which
the spec notes surfaces the Conflict as a 401) exactly when the email is
taken; otherwise it hashes the password, inserts a row with `active = true`,
and composes `login` on the created row.  A second call with the same email
then fails, and exactly one row carries that email afterwards. -/
theorem register_spec :
    (∀ (db : DB) (salt now : Nat) (email password : String)
        (firstName lastName : Option String) (u : User),
        findUserByEmail db email = some u →
        register db salt now email password firstName lastName =
          .error (.unauthorized "User already exists")) ∧
    (∀ (db : DB) (salt now : Nat) (email password : String)
        (firstName lastName : Option String),
        findUserByEmail db email = none →
        ∃ created db2,
          register db salt now email password firstName lastName =
            .ok (db2, login created) ∧
          db2.users = db.users ++ [created] ∧
          created.email = email ∧
          created.password = some (bcryptHash password salt) ∧
          created.isActive = true ∧
          (∀ (salt₂ now₂ : Nat) (password₂ : String) (fn₂ ln₂ : Option String),
            register db2 salt₂ now₂ email password₂ fn₂ ln₂ =
              .error (.unauthorized "User already exists")) ∧
          db2.users.countP (fun v => decide (v.email = email)) = 1) := by
  constructor
  · intro db salt now email password firstName lastName u hf
    simp [register, hf]
  · intro db salt now email password firstName lastName hf
    refine ⟨(insertUser db
        { email := email, password := some (bcryptHash password salt),
          firstName := firstName, lastName := lastName } now).2,
      (insertUser db
        { email := email, password := some (bcryptHash password salt),
          firstName := firstName, lastName := lastName } now).1,
      ?_, rfl, rfl, rfl, rfl, ?_, ?_⟩
    · simp [register, hf]
    · intro salt₂ now₂ password₂ fn₂ ln₂
      have hf₂ : findUserByEmail (insertUser db
          { email := email, password := some (bcryptHash password salt),
            firstName := firstName, lastName := lastName } now).1 email =
          some (insertUser db
          { email := email, password := some (bcryptHash password salt),
            firstName := firstName, lastName := lastName } now).2 := by
        unfold findUserByEmail at hf
        unfold findUserByEmail insertUser
        rw [List.find?_append, hf]
        simp [List.find?_cons]
      simp [register, hf₂]
    · unfold findUserByEmail at hf
      unfold insertUser
      rw [List.countP_append]
      have h0 : db.users.countP (fun v => decide (v.email = email)) = 0 :=
        List.countP_eq_zero.mpr (List.find?_eq_none.mp hf)
      rw [h0]
      simp [List.countP_cons]

/-- Witness for C4 at a concrete store: registering a fresh email on the
one-user store succeeds with all the stated properties, and registering
`exUser`'s email fails with the conflict error. -/
theorem register_spec_witness :
    register exDB 4 7 "a@b.com" "pw1234" none none =
      Except.error (AuthError.unauthorized "User already exists") ∧
    (∃ created db2,
      register exDB 4 7 "new@b.com" "pw1234" none none = .ok (db2, login created) ∧
      db2.users = exDB.users ++ [created] ∧
      created.email = "new@b.com" ∧
      created.password = some (bcryptHash "pw1234" 4) ∧
      created.isActive = true ∧
      (∀ (salt₂ now₂ : Nat) (password₂ : String) (fn₂ ln₂ : Option String),
        register db2 salt₂ now₂ "new@b.com" password₂ fn₂ ln₂ =
          .error (.unauthorized "User already exists")) ∧
      db2.users.countP (fun v => decide (v.email = "new@b.com")) = 1) :=
  ⟨register_spec.1 exDB 4 7 "a@b.com" "pw1234" none none exUser (by decide),
   register_spec.2 exDB 4 7 "new@b.com" "pw1234" none none (by decide)⟩

/-- C7: every catalog operation addressing an id absent from the store fails
with the 404 `NotFoundException`, while the Auth Core's three lookups return
the plain no-match value `none` on a missing record instead of raising. -/
theorem notFound_vs_noMatch_spec :
    (∀ (db : BookDB) (id : Nat), (∀ b ∈ db.books, b.id ≠ id) →
        booksFindOne db id =
          .error (.notFound ("Book with ID " ++ toString id ++ " not found")) ∧
        (∀ (now : Nat) (dto : UpdateBookDto), booksUpdate db now id dto =
          .error (.notFound ("Book with ID " ++ toString id ++ " not found"))) ∧
        booksRemove db id =
          .error (.notFound ("Book with ID " ++ toString id ++ " not found")) ∧
        (∀ (now : Nat) (q : Int), booksUpdateStock db now id q =
          .error (.notFound ("Book with ID " ++ toString id ++ " not found")))) ∧
    (∀ (db : DB) (email : String), (∀ u ∈ db.users, u.email ≠ email) →
        findUserByEmail db email = none) ∧
    (∀ (db : DB) (gid : String), (∀ u ∈ db.users, u.googleId ≠ some gid) →
        findUserByGoogleId db gid = none) ∧
    (∀ (db : DB) (id : Nat), (∀ u ∈ db.users, u.id ≠ id) →
        findUserById db id = none) := by
  refine ⟨?_, ?_, ?_, ?_⟩
  · intro db id habs
    have hfind : db.books.find? (fun b => decide (b.id = id)) = none :=
      List.find?_eq_none.mpr (fun b hb => by simp [habs b hb])
    refine ⟨?_, ?_, ?_, ?_⟩
    · simp [booksFindOne, hfind]
    · intro now dto
      simp [booksUpdate, hfind]
    · have hfil : db.books.filter (fun b => decide (b.id = id)) = [] :=
        List.filter_eq_nil_iff.mpr (fun b hb => by simp [habs b hb])
      simp [booksRemove, hfil]
    · intro now q
      simp [booksUpdateStock, hfind]
  · intro db email habs
    exact List.find?_eq_none.mpr (fun u hu => by simp [habs u hu])
  · intro db gid habs
    exact List.find?_eq_none.mpr (fun u hu => by simp [habs u hu])
  · intro db id habs
    exact List.find?_eq_none.mpr (fun u hu => by simp [habs u hu])

/-- Witness for C7: id 9 and key values absent from the concrete stores. -/
theorem notFound_vs_noMatch_spec_witness :
    (booksFindOne exBookDB 9 =
        .error (.notFound ("Book with ID " ++ toString 9 ++ " not found")) ∧
      (∀ (now : Nat) (dto : UpdateBookDto), booksUpdate exBookDB now 9 dto =
        .error (.notFound ("Book with ID " ++ toString 9 ++ " not found"))) ∧
      booksRemove exBookDB 9 =
        .error (.notFound ("Book with ID " ++ toString 9 ++ " not found")) ∧
      (∀ (now : Nat) (q : Int), booksUpdateStock exBookDB now 9 q =
        .error (.notFound ("Book with ID " ++ toString 9 ++ " not found")))) ∧
    findUserByEmail exDB "nobody@b.com" = none ∧
    findUserByGoogleId exDB "g-0" = none ∧
    findUserById exDB 9 = none :=
  ⟨notFound_vs_noMatch_spec.1 exBookDB 9 (by decide),
   notFound_vs_noMatch_spec.2.1 exDB "nobody@b.com" (by decide),
   notFound_vs_noMatch_spec.2.2.1 exDB "g-0" (by decide),
   notFound_vs_noMatch_spec.2.2.2 exDB 9 (by decide)⟩

/-- C8: every user-data-returning `UsersService` operation yields values in
the image of the password-stripping projection (whose result type has no
password field and which is independent of the stored hash), and the update
row transform never touches the password column. -/
theorem usersService_strips_password :
    (∀ db : DB, usersFindAll db = db.users.map stripPassword) ∧
    (∀ (db : DB) (id : Nat) (r : PublicUser), usersFindOne db id = .ok r →
        ∃ u ∈ db.users, r = stripPassword u) ∧
    (∀ (db : DB) (now id : Nat) (dto : UpdateUserDto) (db2 : DB) (r : PublicUser),
        usersUpdate db now id dto = .ok (db2, r) →
        ∃ u ∈ db.users, r = stripPassword (applyUserUpdate dto now u) ∧
          (applyUserUpdate dto now u).password = u.password) ∧
    (∀ (db : DB) (now id : Nat) (db2 : DB) (r : PublicUser),
        usersDeactivate db now id = .ok (db2, r) →
        ∃ u ∈ db.users, r = stripPassword { u with isActive := false, updatedAt := now }) ∧
    (∀ (db : DB) (now id : Nat) (db2 : DB) (r : PublicUser),
        usersActivate db now id = .ok (db2, r) →
        ∃ u ∈ db.users, r = stripPassword { u with isActive := true, updatedAt := now }) ∧
    (∀ (u : User) (p : Option HashVal),
        stripPassword { u with password := p } = stripPassword u) := by
  refine ⟨fun _ => rfl, ?_, ?_, ?_, ?_, fun _ _ => rfl⟩
  · intro db id r hr
    unfold usersFindOne at hr
    cases hf : findUserById db id with
    | none => rw [hf] at hr; cases hr
    | some u =>
        rw [hf] at hr
        cases hr
        exact ⟨u, List.mem_of_find?_eq_some hf, rfl⟩
  · intro db now id dto db2 r hr
    unfold usersUpdate at hr
    cases hf : findUserById db id with
    | none => rw [hf] at hr; cases hr
    | some u =>
        rw [hf] at hr
        cases hr
        exact ⟨u, List.mem_of_find?_eq_some hf, rfl, rfl⟩
  · intro db now id db2 r hr
    unfold usersDeactivate at hr
    cases hf : findUserById db id with
    | none => rw [hf] at hr; cases hr
    | some u =>
        rw [hf] at hr
        cases hr
        exact ⟨u, List.mem_of_find?_eq_some hf, rfl⟩
  · intro db now id db2 r hr
    unfold usersActivate at hr
    cases hf : findUserById db id with
    | none => rw [hf] at hr; cases hr
    | some u =>
        rw [hf] at hr
        cases hr
        exact ⟨u, List.mem_of_find?_eq_some hf, rfl⟩

/-- Witness for C8: the concrete one-user store, whose single row has a
password hash that appears in no returned value. -/
theorem usersService_strips_password_witness :
    (∃ u ∈ exDB.users, stripPassword exUser = stripPassword u) ∧
    (∃ u ∈ exDB.users,
        stripPassword (applyUserUpdate { firstName := some "Al" } 5 exUser) =
          stripPassword (applyUserUpdate { firstName := some "Al" } 5 u) ∧
        (applyUserUpdate { firstName := some "Al" } 5 u).password = u.password) ∧
    (∃ u ∈ exDB.users,
        stripPassword { exUser with isActive := false, updatedAt := 5 } =
          stripPassword { u with isActive := false, updatedAt := 5 }) ∧
    (∃ u ∈ exDB.users,
        stripPassword { exUser with isActive := true, updatedAt := 5 } =
          stripPassword { u with isActive := true, updatedAt := 5 }) :=
  ⟨usersService_strips_password.2.1 exDB 1 (stripPassword exUser) (by decide),
   usersService_strips_password.2.2.1 exDB 5 1 { firstName := some "Al" }
     (updateUserRow exDB 1 (applyUserUpdate { firstName := some "Al" } 5))
     (stripPassword (applyUserUpdate { firstName := some "Al" } 5 exUser)) (by decide),
   usersService_strips_password.2.2.2.1 exDB 5 1
     (updateUserRow exDB 1 (fun u => { u with isActive := false, updatedAt := 5 }))
     (stripPassword { exUser with isActive := false, updatedAt := 5 }) (by decide),
   usersService_strips_password.2.2.2.2.1 exDB 5 1
     (updateUserRow exDB 1 (fun u => { u with isActive := true, updatedAt := 5 }))
     (stripPassword { exUser with isActive := true, updatedAt := 5 }) (by decide)⟩

/-- The store state after the counterexample run of `changePassword` on
`exDB` re-using the current password as the new one. -/
def exDB2 : DB :=
  updateUserRow exDB 1 (fun v =>
    { v with password := some (bcryptHash "secret1" 4), updatedAt := 9 })

/-- C3 counterexample: on `exDB`, `changePassword 1 "secret1" "secret1"`
(current password correct, new password equal to it) succeeds, and
`validateCredentials` with the old password still succeeds afterwards —
the claim requires it to fail after every successful change. -/
theorem changePassword_claim_counterexample :
    changePassword exDB 4 9 1 "secret1" "secret1" = .ok exDB2 ∧
    validateUser exDB2 "a@b.com" "secret1" =
      some { exUser with password := some (bcryptHash "secret1" 4), updatedAt := 9 } := by
  constructor <;> decide

/-- C3 (amended): `changePassword` fails with Unauthorized, before any write,
exactly when the user is missing, has no stored hash, or the current password
fails verification; otherwise it overwrites the stored hash and updated-at
timestamp, after which the new password validates — and the old one no longer
validates provided it differs from the new one. -/
theorem changePassword_spec :
    (∀ (db : DB) (salt now userId : Nat) (curPw newPw : String),
        (∃ msg, changePassword db salt now userId curPw newPw =
            .error (.unauthorized msg)) ↔
          (findUserById db userId = none ∨
           (∃ u, findUserById db userId = some u ∧ u.password = none) ∨
           (∃ u h, findUserById db userId = some u ∧ u.password = some h ∧
              bcryptCompare curPw h = false))) ∧
    (∀ (db : DB) (salt now userId : Nat) (curPw newPw : String) (u : User) (h : HashVal),
        WF db →
        findUserById db userId = some u →
        u.password = some h →
        bcryptCompare curPw h = true →
        changePassword db salt now userId curPw newPw =
          .ok (updateUserRow db userId (fun v =>
            { v with password := some (bcryptHash newPw salt), updatedAt := now })) ∧
        validateUser (updateUserRow db userId (fun v =>
            { v with password := some (bcryptHash newPw salt), updatedAt := now }))
            u.email newPw =
          some { u with password := some (bcryptHash newPw salt), updatedAt := now }) ∧
    (∀ (db : DB) (salt now userId : Nat) (curPw newPw : String) (u : User) (h : HashVal),
        WF db →
        findUserById db userId = some u →
        u.password = some h →
        bcryptCompare curPw h = true →
        newPw ≠ curPw →
        validateUser (updateUserRow db userId (fun v =>
            { v with password := some (bcryptHash newPw salt), updatedAt := now }))
            u.email curPw = none) := by
  have hfind : ∀ (db : DB) (now salt userId : Nat) (u : User) (newPw : String),
      WF db → findUserById db userId = some u →
      findUserByEmail (updateUserRow db userId (fun v =>
          { v with password := some (bcryptHash newPw salt), updatedAt := now }))
        u.email =
        some { u with password := some (bcryptHash newPw salt), updatedAt := now } := by
    intro db now salt userId u newPw hwf hf
    have hmem : u ∈ db.users := List.mem_of_find?_eq_some hf
    have hid : u.id = userId := by
      have := List.find?_some hf
      simpa using this
    unfold findUserByEmail updateUserRow
    rw [List.find?_map]
    have hone : db.users.find? ((fun w => decide (w.email = u.email)) ∘ (fun v =>
        if v.id = userId then
          { v with password := some (bcryptHash newPw salt), updatedAt := now }
        else v)) = some u := by
      apply find?_eq_some_of_unique hmem
      · simp [Function.comp_apply, hid]
      · intro v hv hpv
        refine hwf.email_inj hv hmem ?_
        rw [Function.comp_apply] at hpv
        by_cases hvid : v.id = userId <;> simpa [hvid] using hpv
    rw [hone]
    simp [hid]
  refine ⟨?_, ?_, ?_⟩
  · intro db salt now userId curPw newPw
    constructor
    · rintro ⟨msg, hmsg⟩
      unfold changePassword at hmsg
      split at hmsg
      · exact Or.inl (by assumption)
      · rename_i u hf
        split at hmsg
        · rename_i hp
          exact Or.inr (Or.inl ⟨u, hf, hp⟩)
        · rename_i h hp
          split at hmsg
          · cases hmsg
          · rename_i hc
            exact Or.inr (Or.inr ⟨u, h, hf, hp, by
              cases hcc : bcryptCompare curPw h
              · rfl
              · exact absurd hcc hc⟩)
    · rintro (hf | ⟨u, hf, hp⟩ | ⟨u, h, hf, hp, hc⟩)
      · exact ⟨"User not found or no password set", by simp [changePassword, hf]⟩
      · exact ⟨"User not found or no password set", by simp [changePassword, hf, hp]⟩
      · exact ⟨"Current password is incorrect", by simp [changePassword, hf, hp, hc]⟩
  · intro db salt now userId curPw newPw u h hwf hf hp hc
    refine ⟨by simp [changePassword, hf, hp, hc], ?_⟩
    have hfe := hfind db now salt userId u newPw hwf hf
    unfold validateUser
    rw [hfe]
    simp [bcryptCompare, bcryptHash]
  · intro db salt now userId curPw newPw u h hwf hf hp hc hne
    have hfe := hfind db now salt userId u newPw hwf hf
    unfold validateUser
    rw [hfe]
    have : bcryptCompare curPw (bcryptHash newPw salt) = false := by
      simp [bcryptCompare, bcryptHash]
      exact fun he => hne he.symm
    simp [this]

/-- Witness for C3 (amended) on the concrete store: changing `exUser`'s
password from "secret1" to "newpass9" succeeds, the new password then
validates, and the old one no longer does. -/
theorem changePassword_spec_witness :
    (changePassword exDB 4 9 1 "secret1" "newpass9" =
        .ok (updateUserRow exDB 1 (fun v =>
          { v with password := some (bcryptHash "newpass9" 4), updatedAt := 9 })) ∧
      validateUser (updateUserRow exDB 1 (fun v =>
          { v with password := some (bcryptHash "newpass9" 4), updatedAt := 9 }))
          exUser.email "newpass9" =
        some { exUser with password := some (bcryptHash "newpass9" 4), updatedAt := 9 }) ∧
    validateUser (updateUserRow exDB 1 (fun v =>
        { v with password := some (bcryptHash "newpass9" 4), updatedAt := 9 }))
        exUser.email "secret1" = none :=
  ⟨changePassword_spec.2.1 exDB 4 9 1 "secret1" "newpass9" exUser (bcryptHash "secret1" 3)
      ⟨by decide, by decide⟩ (by decide) (by decide) (by decide),
   changePassword_spec.2.2 exDB 4 9 1 "secret1" "newpass9" exUser (bcryptHash "secret1" 3)
      ⟨by decide, by decide⟩ (by decide) (by decide) (by decide) (by decide)⟩

theorem find?_map_eq_some_of_unique {α : Type} {p : α → Bool} {g : α → α} {l : List α}
    {u : α} (hmem : u ∈ l) (hp : p (g u) = true)
    (huniq : ∀ v ∈ l, p (g v) = true → v = u) :
    (l.map g).find? p = some (g u) := by
  rw [List.find?_map]
  have hcomp : l.find? (p ∘ g) = some u := find?_eq_some_of_unique hmem hp huniq
  rw [hcomp]
  rfl

/-- After the link path's row update, the lookup by external id finds exactly
the updated row. -/
theorem findByGoogleId_after_link (db : DB) (pid : String) (u : User)
    (av : Option String) (hwf : WF db) (hmem : u ∈ db.users)
    (hg : findUserByGoogleId db pid = none) :
    findUserByGoogleId (updateUserRow db u.id (fun v =>
        { v with googleId := some pid, avatar := av.or v.avatar })) pid =
      some { u with googleId := some pid, avatar := av.or u.avatar } := by
  have habs : ∀ v ∈ db.users, ¬(decide (v.googleId = some pid) = true) :=
    List.find?_eq_none.mp hg
  unfold findUserByGoogleId updateUserRow
  have hres := find?_map_eq_some_of_unique
    (p := fun w => decide (w.googleId = some pid))
    (g := fun v => if v.id = u.id then
      { v with googleId := some pid, avatar := av.or v.avatar } else v)
    hmem (by simp) ?_
  · rw [hres]
    simp
  · intro v hv hpv
    by_cases hvid : v.id = u.id
    · exact hwf.id_inj hv hmem hvid
    · simp only [if_neg hvid] at hpv
      exact absurd hpv (habs v hv)

/-- C1: `googleLogin` is an upsert by priority.  (a) A row carrying the
external id is logged in directly, without touching the store.  (b) Else a
row carrying the profile's primary email is linked: its row is updated in
place — no insert — and afterwards the lookup by external id finds it; if it
was a password account, exactly one row carries both the password hash and
the external id.  (c) Else a fresh row is inserted with no password hash.
(d) Hence a second call with the same profile returns the same store and the
same user id: no duplicate row is ever created. -/
theorem googleLogin_upsert :
    (∀ (db : DB) (now : Nat) (profile : GoogleProfile) (u : User),
        profile.emails ≠ [] →
        findUserByGoogleId db profile.id = some u →
        googleLogin db now profile = .ok (db, login u)) ∧
    (∀ (db : DB) (now : Nat) (profile : GoogleProfile) (e : GoogleEmail)
        (rest : List GoogleEmail) (u : User),
        WF db →
        profile.emails = e :: rest →
        findUserByGoogleId db profile.id = none →
        findUserByEmail db e.value = some u →
        ∃ db2, googleLogin db now profile =
            .ok (db2, login { u with googleId := some profile.id, avatar := (profile.photos.head?).map GooglePhoto.value }) ∧
          db2.users.length = db.users.length ∧
          findUserByGoogleId db2 profile.id =
            some { u with googleId := some profile.id, avatar := ((profile.photos.head?).map GooglePhoto.value).or u.avatar } ∧
          (u.password.isSome = true →
            db2.users.countP (fun v =>
              v.password.isSome && decide (v.googleId = some profile.id)) = 1)) ∧
    (∀ (db : DB) (now : Nat) (profile : GoogleProfile) (e : GoogleEmail)
        (rest : List GoogleEmail),
        profile.emails = e :: rest →
        findUserByGoogleId db profile.id = none →
        findUserByEmail db e.value = none →
        ∃ created, googleLogin db now profile =
            .ok ({ users := db.users ++ [created], nextId := db.nextId + 1 },
                 login created) ∧
          created.password = none ∧ created.email = e.value ∧
          created.googleId = some profile.id) ∧
    (∀ (db : DB) (now now₂ : Nat) (profile : GoogleProfile) (db1 : DB)
        (r1 : LoginResponse),
        WF db →
        profile.emails ≠ [] →
        googleLogin db now profile = .ok (db1, r1) →
        ∃ r2, googleLogin db1 now₂ profile = .ok (db1, r2) ∧
          r2.user.id = r1.user.id) := by
  refine ⟨?_, ?_, ?_, ?_⟩
  · intro db now profile u hne hg
    cases hes : profile.emails with
    | nil => exact absurd hes hne
    | cons e rest => simp [googleLogin, hes, hg]
  · intro db now profile e rest u hwf hes hg hm
    have hmem : u ∈ db.users := List.mem_of_find?_eq_some hm
    refine ⟨updateUserRow db u.id (fun v =>
        { v with googleId := some profile.id,
                 avatar := ((profile.photos.head?).map GooglePhoto.value).or v.avatar }),
      ?_, ?_, ?_, ?_⟩
    · simp [googleLogin, hes, hg, hm]
    · simp [updateUserRow]
    · exact findByGoogleId_after_link db profile.id u
        ((profile.photos.head?).map GooglePhoto.value) hwf hmem hg
    · intro hps
      have habs : ∀ v ∈ db.users, ¬(decide (v.googleId = some profile.id) = true) :=
        List.find?_eq_none.mp hg
      unfold updateUserRow
      rw [List.countP_map]
      apply countP_eq_one_of_unique hwf.nodup hmem
      · simp [Function.comp_apply, hps]
      · intro v hv hpv
        by_cases hvid : v.id = u.id
        · exact hwf.id_inj hv hmem hvid
        · simp only [Function.comp_apply, if_neg hvid, Bool.and_eq_true] at hpv
          exact absurd hpv.2 (habs v hv)
  · intro db now profile e rest hes hg hm
    refine ⟨{ id := db.nextId, email := e.value, password := none,
              firstName := profile.name.givenName, lastName := profile.name.familyName,
              googleId := some profile.id,
              avatar := (profile.photos.head?).map GooglePhoto.value,
              isActive := true, createdAt := now, updatedAt := now },
      ?_, rfl, rfl, rfl⟩
    simp [googleLogin, hes, hg, hm, insertUser]
  · intro db now now₂ profile db1 r1 hwf hne hrun
    cases hes : profile.emails with
    | nil => exact absurd hes hne
    | cons e rest =>
        cases hg : findUserByGoogleId db profile.id with
        | some u =>
            rw [googleLogin, hes] at hrun
            simp only [hg, Except.ok.injEq, Prod.mk.injEq] at hrun
            obtain ⟨rfl, rfl⟩ := hrun
            exact ⟨login u, by simp [googleLogin, hes, hg], rfl⟩
        | none =>
            cases hm : findUserByEmail db e.value with
            | some u =>
                have hmem : u ∈ db.users := List.mem_of_find?_eq_some hm
                rw [googleLogin, hes] at hrun
                simp only [hg, hm, Except.ok.injEq, Prod.mk.injEq] at hrun
                obtain ⟨rfl, rfl⟩ := hrun
                have hfind := findByGoogleId_after_link db profile.id u
                  ((profile.photos.head?).map GooglePhoto.value) hwf hmem hg
                refine ⟨login { u with googleId := some profile.id, avatar := ((profile.photos.head?).map GooglePhoto.value).or u.avatar }, ?_, rfl⟩
                simp [googleLogin, hes, hfind]
            | none =>
                rw [googleLogin, hes] at hrun
                simp only [hg, hm, Except.ok.injEq, Prod.mk.injEq] at hrun
                obtain ⟨rfl, rfl⟩ := hrun
                have habs : ∀ v ∈ db.users, ¬(decide (v.googleId = some profile.id) = true) :=
                  List.find?_eq_none.mp hg
                have hfind : findUserByGoogleId (insertUser db
                    { email := e.value, googleId := some profile.id,
                      firstName := profile.name.givenName,
                      lastName := profile.name.familyName,
                      avatar := (profile.photos.head?).map GooglePhoto.value } now).1
                    profile.id =
                    some (insertUser db
                    { email := e.value, googleId := some profile.id,
                      firstName := profile.name.givenName,
                      lastName := profile.name.familyName,
                      avatar := (profile.photos.head?).map GooglePhoto.value } now).2 := by
                  unfold findUserByGoogleId insertUser
                  rw [List.find?_append, List.find?_eq_none.mpr habs]
                  simp [List.find?_cons]
                simp only [insertUser] at hfind
                refine ⟨_, ?_, rfl⟩
                simp [googleLogin, hes, hfind, insertUser]

/-- A user row that already carries the external id `g-77`. -/
def exUserG : User :=
  { id := 2, email := "g@b.com", password := none, firstName := none,
    lastName := none, googleId := some "g-77", avatar := none,
    isActive := true, createdAt := 0, updatedAt := 0 }

/-- A store whose only row already carries the external id. -/
def exDBG : DB :=
  { users := [exUserG], nextId := 3 }

/-- `exUser` after the link path of `googleLogin exDB _ exProfile`. -/
def exLinkedUser : User :=
  { exUser with googleId := some "g-77", avatar := some "http://p/1.png" }

/-- The store after the link path of `googleLogin exDB _ exProfile`. -/
def exDBLinked : DB :=
  { users := [exLinkedUser], nextId := 2 }

/-- Witness for C1 on concrete stores: (a) direct login when the external id
is on file; (b) linking onto `exUser`'s password account; (c) creation on an
empty store; (d) idempotence of a second identical call after a link. -/
theorem googleLogin_upsert_witness :
    googleLogin exDBG 5 exProfile = .ok (exDBG, login exUserG) ∧
    (∃ db2, googleLogin exDB 5 exProfile =
        .ok (db2, login { exUser with googleId := some exProfile.id, avatar := (exProfile.photos.head?).map GooglePhoto.value }) ∧
      db2.users.length = exDB.users.length ∧
      findUserByGoogleId db2 exProfile.id =
        some { exUser with googleId := some exProfile.id, avatar := ((exProfile.photos.head?).map GooglePhoto.value).or exUser.avatar } ∧
      (exUser.password.isSome = true →
        db2.users.countP (fun v =>
          v.password.isSome && decide (v.googleId = some exProfile.id)) = 1)) ∧
    (∃ created, googleLogin { users := [], nextId := 1 } 5 exProfile =
        .ok ({ users := [] ++ [created], nextId := 1 + 1 }, login created) ∧
      created.password = none ∧ created.email = GoogleEmail.value { value := "a@b.com" } ∧
      created.googleId = some exProfile.id) ∧
    (∃ r2, googleLogin exDBLinked 6 exProfile = .ok (exDBLinked, r2) ∧
      r2.user.id = (login exLinkedUser).user.id) := by
  refine ⟨?_, ?_, ?_, ?_⟩
  · exact googleLogin_upsert.1 exDBG 5 exProfile exUserG (by decide) (by decide)
  · exact googleLogin_upsert.2.1 exDB 5 exProfile { value := "a@b.com" } [] exUser
      ⟨by decide, by decide⟩ (by decide) (by decide) (by decide)
  · exact googleLogin_upsert.2.2.1 { users := [], nextId := 1 } 5 exProfile
      { value := "a@b.com" } [] (by decide) (by decide) (by decide)
  · exact googleLogin_upsert.2.2.2 exDB 5 6 exProfile exDBLinked (login exLinkedUser)
      ⟨by decide, by decide⟩ (by decide) (by decide)

/-! ### ILIKE pattern matching versus case-insensitive substring search -/

theorem likeMatch_percent (ps s : List Char) :
    likeMatch ('%' :: ps) s = s.tails.any (fun t => likeMatch ps t) :=
  likeMatch.eq_3 s ps

theorem likeMatch_cons_nil {a : Char} (ps : List Char)
    (ha1 : a ≠ '%') (ha2 : a ≠ '_') (ha3 : a ≠ '\\') :
    likeMatch (a :: ps) [] = false :=
  likeMatch.eq_9 a ps ha1 ha2 (fun _ _ ha _ => ha3 ha) (fun ha _ => ha3 ha)

theorem likeMatch_cons_cons {a : Char} (ps : List Char) (c : Char) (s : List Char)
    (ha1 : a ≠ '%') (ha2 : a ≠ '_') (ha3 : a ≠ '\\') :
    likeMatch (a :: ps) (c :: s) = ((a.toLower == c.toLower) && likeMatch ps s) :=
  likeMatch.eq_10 a ps c s ha1 ha2 (fun _ _ ha _ => ha3 ha) (fun ha _ => ha3 ha)

theorem likeMatch_percent_nil (s : List Char) : likeMatch ['%'] s = true := by
  rw [likeMatch_percent]
  refine List.any_eq_true.mpr ⟨[], (List.mem_tails _ _).mpr ?_, rfl⟩
  exact List.nil_suffix

theorem likeMatch_nowild_append_percent {q : List Char}
    (hq : ∀ c ∈ q, c ≠ '%' ∧ c ≠ '_' ∧ c ≠ '\\') :
    ∀ s, likeMatch (q ++ ['%']) s =
      (q.map Char.toLower).isPrefixOf (s.map Char.toLower) := by
  induction q with
  | nil =>
      intro s
      simp [likeMatch_percent_nil, List.isPrefixOf]
  | cons a q ih =>
      intro s
      obtain ⟨ha1, ha2, ha3⟩ := hq a (List.mem_cons_self a q)
      have hq' : ∀ c ∈ q, c ≠ '%' ∧ c ≠ '_' ∧ c ≠ '\\' :=
        fun c hc => hq c (List.mem_cons_of_mem _ hc)
      cases s with
      | nil =>
          rw [List.cons_append, likeMatch_cons_nil _ ha1 ha2 ha3]
          simp [List.isPrefixOf]
      | cons c s =>
          rw [List.cons_append, likeMatch_cons_cons _ c s ha1 ha2 ha3]
          simp [List.isPrefixOf, ih hq' s]

theorem tails_map {α : Type} (f : α → α) :
    ∀ l : List α, (l.map f).tails = l.tails.map (List.map f)
  | [] => by simp
  | a :: l => by simp [List.tails_cons, tails_map f l]

theorem likeMatch_pattern_substring {q : List Char}
    (hq : ∀ c ∈ q, c ≠ '%' ∧ c ≠ '_' ∧ c ≠ '\\') (s : List Char) :
    likeMatch ('%' :: (q ++ ['%'])) s =
      ((s.map Char.toLower).tails).any
        (fun t => (q.map Char.toLower).isPrefixOf t) := by
  rw [likeMatch_percent,
    funext (likeMatch_nowild_append_percent hq), tails_map, List.any_map]
  rfl

/-- C9 counterexample: the query "a_c" is not a substring of the title "abc"
(nor of `exBook`'s author or empty description), yet `search` returns the
book: the SQL `_` wildcard matches the "b".  The claim's for-all over query
strings fails. -/
theorem booksSearch_claim_counterexample :
    booksSearch exBookDB "a_c" = [exBook] ∧
    booksSearchSpec exBookDB "a_c" = [] := by
  constructor <;> decide

/-- C9 (amended): for every query string containing none of the SQL LIKE
metacharacters `%`, `_` and `\`, `search` returns exactly the books whose
title, author, or description contains the query as a case-insensitive
substring. -/
theorem booksSearch_ci_substring (db : BookDB) (query : String)
    (hq : ∀ c ∈ query.data, c ≠ '%' ∧ c ≠ '_' ∧ c ≠ '\\') :
    booksSearch db query = booksSearchSpec db query := by
  simp only [booksSearch, booksSearchSpec]
  apply List.filter_congr
  intro b _
  have hdata : ("%" ++ query ++ "%").data = '%' :: (query.data ++ ['%']) := by
    simp
  have hfield : ∀ t : String,
      ilikeCol (some t) ("%" ++ query ++ "%") = ciSubstring query t := by
    intro t
    show likeMatch ("%" ++ query ++ "%").data t.data = ciSubstring query t
    rw [hdata, likeMatch_pattern_substring hq]
    rfl
  have hdesc : ilikeCol b.description ("%" ++ query ++ "%") =
      (match b.description with | some d => ciSubstring query d | none => false) := by
    cases hbd : b.description with
    | none => rfl
    | some d => exact hfield d
  rw [hfield b.title, hfield b.author, hdesc]

/-- Witness for C9 (amended) at a wildcard-free query on the concrete
catalog: "AB" case-insensitively matches the title "abc". -/
theorem booksSearch_ci_substring_witness :
    booksSearch exBookDB "AB" = booksSearchSpec exBookDB "AB" ∧
    booksSearch exBookDB "AB" = [exBook] :=
  ⟨booksSearch_ci_substring exBookDB "AB" (by decide), by decide⟩

end Bookstore
